import Mathlib

/-!
Verification of the gostore data layer: a shallow embedding of the
entity schema, the identifier-coercion utility, and the per-entity
repository operations (thin wrappers around gorm calls), together with
theorems settling the documented behavioural claims.

Machine integers are modelled as `Nat`/`Int` with explicit reduction
modulo `2 ^ 64` where Go's conversion semantics makes overflow visible.
-/

namespace Store

/-! ## Identifier coercion (`utils`, `StringToUint`)

Go source:
```
func StringToUint(s string) uint \x7b
    i, _ := strconv.Atoi(s)
    return uint(i)
\x7d
```
`strconv.Atoi` on a 64-bit platform parses an optional sign followed by
decimal digits; on a syntax error it yields `(0, ErrSyntax)`, on overflow
the clamped extreme with `ErrRange`. `uint(i)` is Go's two's-complement
conversion from `int` to `uint` (both 64-bit): the value modulo `2 ^ 64`.
-/

/-- Accumulate the decimal value of a nonempty all-digit character list;
`none` when the list is empty or holds a non-digit (strconv syntax error). -/
def digitsVal : List Char → Option Nat
  | [] => none
  | cs =>
    cs.foldl
      (fun acc c =>
        match acc with
        | none => none
        | some n => if c.isDigit then some (n * 10 + (c.toNat - 48)) else none)
      (some 0)

/-- Largest Go `int` value on a 64-bit platform. -/
def intMax64 : Int := 2 ^ 63 - 1

/-- Smallest Go `int` value on a 64-bit platform. -/
def intMin64 : Int := -(2 ^ 63)

/-- Model of Go `strconv.Atoi` on a 64-bit platform: the parsed `int`
value together with a success flag (`false` on the syntax and range
errors, in which cases Atoi reports `0` and the clamped extreme
respectively). `StringToUint` discards the flag, as the Go code discards
the error. -/
def atoi (s : String) : Int × Bool :=
  match s.data with
  | '+' :: rest =>
    match digitsVal rest with
    | none => (0, false)
    | some n =>
      if (n : Int) > intMax64 then (intMax64, false) else ((n : Int), true)
  | '-' :: rest =>
    match digitsVal rest with
    | none => (0, false)
    | some n =>
      if -(n : Int) < intMin64 then (intMin64, false) else (-(n : Int), true)
  | cs =>
    match digitsVal cs with
    | none => (0, false)
    | some n =>
      if (n : Int) > intMax64 then (intMax64, false) else ((n : Int), true)

/-- Go's conversion `uint(i)` for a 64-bit `int`: two's-complement
reinterpretation, i.e. the value modulo `2 ^ 64`. -/
def uintOfInt (i : Int) : Nat := (i % (2 : Int) ^ 64).toNat

/-- Embedding of `utils.StringToUint`: `i, _ := strconv.Atoi(s); return uint(i)`. -/
def StringToUint (s : String) : Nat := uintOfInt (atoi s).1

/-! ## Entity schema metadata

Each entity's `TableName` method returns a fixed string, copied here
verbatim from the source. The gorm association tags on the two
`Contact` one-to-one associations are embedded as data. -/

/-- Table name returned by `Customer.TableName`. -/
def Customer.tableName : String := "sales.customers"

/-- Table name returned by `Order.TableName`. -/
def Order.tableName : String := "sales.orders"

/-- Table name returned by `Contact.TableName`. -/
def Contact.tableName : String := "sales.contacts"

/-- Table name returned by `Product.TableName`. -/
def Product.tableName : String := "sales.products"

/-- Table name returned by `Supplier.TableName`. -/
def Supplier.tableName : String := "sales.suppliers"

/-- Table name returned by `ProductSupplier.TableName`. -/
def ProductSupplier.tableName : String := "sales.product_suppliers"

/-- Table name returned by `OrderProductSupplier.TableName`. -/
def OrderProductSupplier.tableName : String := "sales.order_product_suppliers"

/-- The single schema namespace shared by all seven tables. -/
def schemaName : String := "sales"

/-- A gorm `has one` association tag: the Go field it annotates, the
foreign-key field named in the tag, and whether the tag carries
`unique`. -/
structure GormAssociation where
  fieldName : String
  foreignKey : String
  uniqueTag : Bool
deriving DecidableEq, Repr

/-- Tag on `Customer.Contact` in customer.entity.go:
`gorm:"foreignKey:CustomerID;unique"`. -/
def Customer.contactAssociation : GormAssociation :=
  ⟨"Contact", "CustomerID", true⟩

/-- Tag on `Supplier.Contact` in supplier.entity.go, verbatim:
`gorm:"foreignKey:CustomerID;unique"` (the tag names `CustomerID`, not
`SupplierID`). -/
def Supplier.contactAssociation : GormAssociation :=
  ⟨"Contact", "CustomerID", true⟩

/-- Column names of the two foreign-key fields of `Contact`
(`CustomerID`/`customer_id`, `SupplierID`/`supplier_id` per the entity
definition); gorm resolves a `foreignKey:` tag to the named field's
column. -/
def contactColumnOf : String → String
  | "CustomerID" => "customer_id"
  | "SupplierID" => "supplier_id"
  | _ => ""

/-! ## The persistent store

Every repository is the same five gorm calls instantiated at one entity
type (`Create`, `Where("id = ?", id).First` / `First(&x, id)`, `Find`,
`Save`, `Where(...).Delete`), so the store is modelled once, generically
over the record's caller-supplied fields `α`. A row carries the
store-assigned surrogate id, the `gorm.Model` timestamps, and the
soft-delete mark (`DeletedAt`); time is an abstract tick counter. -/

/-- The two failure kinds a repository call surfaces. -/
inductive DbError where
  | recordNotFound
  | uniqueViolation
deriving DecidableEq, Repr

/-- One stored row: surrogate id, `gorm.Model` timestamps, soft-delete
mark, and the entity's caller-supplied fields. -/
structure Row (α : Type) where
  id : Nat
  createdAt : Nat
  updatedAt : Nat
  deletedAt : Option Nat
  fields : α
deriving DecidableEq, Repr

/-- A row is active when its `DeletedAt` mark is unset; gorm's default
scope reads only active rows. -/
def Row.active {α : Type} (r : Row α) : Bool := r.deletedAt.isNone

/-- The zero value of a row type (Go `var x T`): zero id and timestamps,
no deletion mark, zero fields. -/
def Row.zero {α : Type} (z : α) : Row α := ⟨0, 0, 0, none, z⟩

/-- One entity's table: the physically stored rows, the auto-increment
counter, and the clock used to stamp writes. -/
structure DB (α : Type) where
  rows : List (Row α)
  nextId : Nat
  clock : Nat
deriving DecidableEq, Repr

/-- Rows visible to gorm reads: `deleted_at IS NULL`. -/
def DB.activeRows {α : Type} (db : DB α) : List (Row α) :=
  db.rows.filter Row.active

/-- Gorm `Where("id = ?", id).First(&x)` (equivalently `First(&x, id)`):
the active row with the given primary key. -/
def DB.firstById {α : Type} (db : DB α) (id : Nat) : Option (Row α) :=
  db.activeRows.find? (fun r => r.id == id)

/-- The id gorm `Create` stores: the auto-increment counter when the
record's id is zero, the caller-supplied id otherwise. -/
def DB.newIdFor {α : Type} (db : DB α) (rid : Nat) : Nat :=
  if rid = 0 then db.nextId else rid

/-- Repository `Create`: gorm `Create(record)`. Inserts one row with the
assigned id and fresh timestamps; a primary-key conflict with any
physically stored row is a storage failure. Returns the stored record
and the new table state, as the Go call fills the passed struct. -/
def DB.Create {α : Type} (db : DB α) (rid : Nat) (f : α) :
    Except DbError (Row α × DB α) :=
  if db.rows.any (fun r => r.id == db.newIdFor rid) then
    Except.error DbError.uniqueViolation
  else
    Except.ok
      (⟨db.newIdFor rid, db.clock, db.clock, none, f⟩,
        ⟨db.rows ++ [⟨db.newIdFor rid, db.clock, db.clock, none, f⟩],
          max db.nextId (db.newIdFor rid + 1), db.clock + 1⟩)

/-- Repository `GetByID`: `var x T; err := db.First(&x, id).Error;
return &x, err`. The returned pointer is always `&x`, never nil: on a
miss the zero-valued record is returned together with the not-found
error. -/
def DB.GetByID {α : Type} (db : DB α) (z : α) (id : Nat) :
    Option (Row α) × Option DbError :=
  match db.firstById id with
  | some r => (some r, none)
  | none => (some (Row.zero z), some DbError.recordNotFound)

/-- Repository `GetAll`: gorm `Find(&xs)` with no conditions. An empty
match set is an empty slice, not an error. -/
def DB.GetAll {α : Type} (db : DB α) : List (Row α) × Option DbError :=
  (db.activeRows, none)

/-- Repository `Update`: gorm `Save(record)`. A zero primary key runs
`Create`; otherwise an UPDATE of all fields on the active row with that
id; when that UPDATE matches no rows gorm v2 falls back to `Create`
(finisher `Save`: `if updateTx.RowsAffected == 0 ... return
tx.Create(value)`). -/
def DB.Update {α : Type} (db : DB α) (rid : Nat) (f : α) :
    Except DbError (DB α) :=
  if rid = 0 then
    (db.Create 0 f).map (fun p => p.2)
  else if db.rows.any (fun r => r.active && r.id == rid) then
    Except.ok
      ⟨db.rows.map
          (fun r =>
            if r.active && r.id == rid then
              ⟨r.id, r.createdAt, db.clock, r.deletedAt, f⟩
            else r),
        db.nextId, db.clock + 1⟩
  else
    (db.Create rid f).map (fun p => p.2)

/-- Repository `Delete`: gorm `Delete` on a soft-delete model, i.e.
`UPDATE ... SET deleted_at = now WHERE id = ? AND deleted_at IS NULL`.
Succeeds (no error) also when nothing matches. -/
def DB.Delete {α : Type} (db : DB α) (id : Nat) : DB α × Option DbError :=
  (⟨db.rows.map
      (fun r =>
        if r.active && r.id == id then
          ⟨r.id, r.createdAt, r.updatedAt, some db.clock, r.fields⟩
        else r),
    db.nextId, db.clock + 1⟩, none)

/-- Repository `DeleteAll`: gorm `Delete` with `id IN (?)`: one
statement soft-deleting every active row whose id is in the list. -/
def DB.DeleteAll {α : Type} (db : DB α) (ids : List Nat) :
    DB α × Option DbError :=
  (⟨db.rows.map
      (fun r =>
        if r.active && ids.contains r.id then
          ⟨r.id, r.createdAt, r.updatedAt, some db.clock, r.fields⟩
        else r),
    db.nextId, db.clock + 1⟩, none)

/-! ## Concrete entity instantiation for the relationship-aware fetch -/

/-- An IEEE-754 binary32 value, identified by its bit pattern; no claim
computes with float values, so only storage identity is modelled. -/
structure Float32 where
  bits : Nat
deriving DecidableEq, Repr

/-- Caller-supplied fields of `Customer` (id and `gorm.Model` timestamps
live on `Row`); `time.Time` is an abstract tick. -/
structure CustomerFields where
  firstName : String
  lastName : String
  birthday : Nat
  taxId : String
deriving DecidableEq, Repr

/-- The zero value of `CustomerFields` (Go `var x entities.Customer`). -/
def CustomerFields.zero : CustomerFields := ⟨"", "", 0, ""⟩

/-- Caller-supplied fields of `Order`. -/
structure OrderFields where
  customerId : Nat
  orderDate : Nat
  deliveryDate : Nat
  deliveryOrder : Bool
  discount : Float32
  ukOrderNumber : String
deriving DecidableEq, Repr

/-- The customers and orders tables the customer repository touches. -/
structure SalesDB where
  customers : DB CustomerFields
  orders : DB OrderFields
deriving DecidableEq, Repr

/-- A customer struct with its `Orders` slice populated by a preload. -/
structure CustomerWithOrders where
  customer : Row CustomerFields
  orders : List (Row OrderFields)
deriving DecidableEq, Repr

/-- Repository `GetCustomerWithOrders`:
`Preload("Orders").Where("id = ?", id).First(&customer)`. On a hit the
preload loads the active orders whose `customer_id` equals the loaded
customer's primary key; on a miss the zero-valued customer (nil orders
slice) is returned with the not-found error. -/
def SalesDB.GetCustomerWithOrders (s : SalesDB) (id : Nat) :
    Option CustomerWithOrders × Option DbError :=
  match s.customers.firstById id with
  | some c =>
    (some ⟨c, s.orders.activeRows.filter (fun o => o.fields.customerId == c.id)⟩,
      none)
  | none =>
    (some ⟨Row.zero CustomerFields.zero, []⟩, some DbError.recordNotFound)

/-! ## Sample states used as concrete witnesses -/

/-- A customers table holding no rows. -/
def emptyCustomers : DB CustomerFields := ⟨[], 1, 0⟩

/-- The customer fields of the spec's scenario record. -/
def anaFields : CustomerFields := ⟨"Ana", "Lima", 0, "123"⟩

/-- A state with one active customer (id 1) and one soft-deleted order
referencing it, so the customer has no active orders. -/
def sampleSales : SalesDB :=
  ⟨⟨[⟨1, 0, 0, none, anaFields⟩], 2, 1⟩,
    ⟨[⟨1, 0, 0, some 5, ⟨1, 0, 0, false, ⟨0⟩, "A-1"⟩⟩], 2, 6⟩⟩

/-- A customers table whose only row is soft-deleted: the table is
physically nonempty but holds no non-deleted rows. -/
def deletedOnly : DB CustomerFields := ⟨[⟨1, 0, 0, some 3, anaFields⟩], 2, 4⟩

end Store

namespace Store

/-! ## Supporting lemmas -/

theorem find?_append_skip {α : Type} (p : α → Bool) (l1 l2 : List α)
    (h : ∀ x ∈ l1, p x = false) : (l1 ++ l2).find? p = l2.find? p := by
  induction l1 with
  | nil => rfl
  | cons a t ih =>
    rw [List.cons_append, List.find?_cons_of_neg]
    · exact ih (fun x hx => h x (List.mem_cons_of_mem a hx))
    · simp [h a (List.mem_cons_self a t)]

theorem all_active_activeRows {α : Type} (db : DB α) :
    db.activeRows.all Row.active = true := by
  rw [List.all_eq_true]
  intro r hr
  exact (List.mem_filter.mp hr).2

theorem all_active_filter_activeRows {α : Type} (db : DB α) (q : Row α → Bool) :
    ((db.activeRows.filter q).all Row.active) = true := by
  rw [List.all_eq_true]
  intro r hr
  exact (List.mem_filter.mp (List.mem_of_mem_filter hr)).2

theorem isPrefixOf_append_self (l t : List Nat) : l.isPrefixOf (l ++ t) = true := by
  induction l with
  | nil => simp [List.isPrefixOf]
  | cons a as ih => simp [List.isPrefixOf, ih]

theorem isPrefixOf_self (l : List Nat) : l.isPrefixOf l = true := by
  have h := isPrefixOf_append_self l []
  rwa [List.append_nil] at h

theorem map_id_of_mark {α : Type} (l : List (Row α)) (g : Row α → Row α)
    (h : ∀ r, (g r).id = r.id) : (l.map g).map Row.id = l.map Row.id := by
  induction l with
  | nil => rfl
  | cons a t ih => simp [h a, ih]

theorem create_ok_rows {α : Type} (db : DB α) (rid : Nat) (f : α) (row : Row α)
    (db2 : DB α) (h : db.Create rid f = Except.ok (row, db2)) :
    db2.rows = db.rows ++ [row] := by
  unfold DB.Create at h
  by_cases hc : db.rows.any (fun r => r.id == db.newIdFor rid) = true
  · rw [if_pos hc] at h
    exact absurd h (by simp)
  · rw [if_neg hc] at h
    simp only [Except.ok.injEq, Prod.mk.injEq] at h
    obtain ⟨h1, h2⟩ := h
    subst h2
    rw [← h1]

/-! ## Claims -/

/-- C1: for every entity type, when `Create(r)` succeeds, `GetByID` with
the id assigned to the stored record returns exactly that record and no
error, so all caller-supplied fields of the result equal those of `r`. -/
theorem create_then_getByID_preserves_fields {α : Type} (db : DB α) (z : α)
    (rid : Nat) (f : α) (row : Row α) (db2 : DB α)
    (h : db.Create rid f = Except.ok (row, db2)) :
    db2.GetByID z row.id = (some row, none) ∧ row.fields = f := by
  unfold DB.Create at h
  by_cases hc : db.rows.any (fun r => r.id == db.newIdFor rid) = true
  · rw [if_pos hc] at h
    exact absurd h (by simp)
  · rw [if_neg hc] at h
    simp only [Except.ok.injEq, Prod.mk.injEq] at h
    obtain ⟨hrow, hdb⟩ := h
    subst hrow hdb
    refine ⟨?_, rfl⟩
    have hall : ∀ x ∈ db.rows, (x.id == db.newIdFor rid) = false := by
      intro x hx
      by_contra hne
      exact hc (List.any_eq_true.mpr ⟨x, hx, by simpa using hne⟩)
    unfold DB.GetByID DB.firstById DB.activeRows
    rw [List.filter_append]
    have hact : List.filter Row.active
        [(⟨db.newIdFor rid, db.clock, db.clock, none, f⟩ : Row α)] =
        [⟨db.newIdFor rid, db.clock, db.clock, none, f⟩] := rfl
    rw [hact]
    rw [find?_append_skip _ _ _
      (fun x hx => hall x (List.mem_of_mem_filter hx))]
    simp [List.find?]

/-- Witness for C1 at a concrete input: creating the scenario customer
in an empty table stores it under id 1, and `GetByID 1` on the resulting
state returns it unchanged. -/
theorem create_then_getByID_preserves_fields_wit :
    emptyCustomers.Create 0 anaFields =
      Except.ok (⟨1, 0, 0, none, anaFields⟩,
        ⟨[⟨1, 0, 0, none, anaFields⟩], 2, 1⟩)
    ∧ (⟨[⟨1, 0, 0, none, anaFields⟩], 2, 1⟩ : DB CustomerFields).GetByID
        CustomerFields.zero 1 = (some ⟨1, 0, 0, none, anaFields⟩, none) :=
  ⟨rfl, (create_then_getByID_preserves_fields emptyCustomers
    CustomerFields.zero 0 anaFields ⟨1, 0, 0, none, anaFields⟩ _ rfl).1⟩

/-- C2: for every entity type and id list, after `DeleteAll(ids)` a
`GetAll()` on the resulting state contains no record whose id is in
`ids`. -/
theorem deleteAll_then_getAll_excludes_ids {α : Type} (db : DB α)
    (ids : List Nat) :
    ((db.DeleteAll ids).1.GetAll.1.filter (fun r => ids.contains r.id)) = [] := by
  unfold DB.DeleteAll DB.GetAll DB.activeRows
  rw [List.filter_eq_nil_iff]
  intro r hr
  rw [List.mem_filter] at hr
  obtain ⟨hmem, hact⟩ := hr
  rw [List.mem_map] at hmem
  obtain ⟨x, hx, hgx⟩ := hmem
  by_cases hcond : (x.active && ids.contains x.id) = true
  · rw [if_pos hcond] at hgx
    subst hgx
    simp [Row.active] at hact
  · rw [if_neg hcond] at hgx
    subst hgx
    intro hcont
    exact hcond (by rw [hact, hcont]; rfl)

/-- C3 counterexample: `Update` on an empty table with a record carrying
the fresh id 5 does not fail with not-found; it succeeds and inserts a
new row with id 5 (gorm `Save` falls back to `Create` when its UPDATE
matches no rows), refuting the claim at this input. -/
theorem update_missing_id_succeeds_and_inserts :
    emptyCustomers.Update 5 anaFields =
      Except.ok ⟨[⟨5, 0, 0, none, anaFields⟩], 6, 1⟩
    ∧ emptyCustomers.Update 5 anaFields ≠ Except.error DbError.recordNotFound
    ∧ ((emptyCustomers.Update 5 anaFields).toOption.map
        (fun d => d.rows.map Row.id)) = some [5] :=
  ⟨rfl, fun h => Except.noConfusion h, rfl⟩

/-- C3 amended: for every entity type, `Update` on a record whose
nonzero id matches no stored row succeeds with no error and inserts a
new row carrying that id and the given fields. -/
theorem update_missing_id_upserts {α : Type} (db : DB α) (rid : Nat) (f : α)
    (h0 : rid ≠ 0)
    (habs : db.rows.any (fun r => r.id == rid) = false) :
    db.Update rid f =
      Except.ok ⟨db.rows ++ [⟨rid, db.clock, db.clock, none, f⟩],
        max db.nextId (rid + 1), db.clock + 1⟩ := by
  have hup : db.rows.any (fun r => r.active && r.id == rid) = false := by
    rw [List.any_eq_false]
    intro x hx
    rw [List.any_eq_false] at habs
    have hfx : (x.id == rid) = false := Bool.eq_false_iff.mpr (habs x hx)
    simp [hfx]
  unfold DB.Update
  rw [if_neg h0, if_neg (by simp [hup])]
  unfold DB.Create DB.newIdFor
  simp only [if_neg h0]
  rw [if_neg (by simp [habs])]
  rfl

/-- Witness for the amended C3 at a concrete input: updating id 5 in an
empty table inserts the row with id 5. -/
theorem update_missing_id_upserts_wit :
    (5 ≠ 0)
    ∧ emptyCustomers.Update 5 anaFields =
        Except.ok ⟨[⟨5, 0, 0, none, anaFields⟩], 6, 1⟩ :=
  ⟨by decide, update_missing_id_upserts emptyCustomers 5 anaFields
    (by decide) rfl⟩

/-- C4: `StringToUint "abc"` is 0, but `StringToUint "-5"` is not 0: Go
converts the parsed negative `int` to `uint` by two's complement, so the
result is `2 ^ 64 - 5`, contradicting the claim (and the function's own
doc comment) that negative input yields 0. -/
theorem stringToUint_wraps_negative :
    StringToUint "-5" = 2 ^ 64 - 5
    ∧ StringToUint "-5" ≠ 0
    ∧ StringToUint "abc" = 0 :=
  ⟨by decide, by decide, by decide⟩

/-- C5: reads (`GetAll`, `GetByID`, `GetCustomerWithOrders`) only ever
surface active rows, never soft-deleted ones, while no operation of the
layer physically removes a row: `Delete`/`DeleteAll` keep the stored id
sequence unchanged, and `Create`/`Update` only extend it. -/
theorem soft_delete_excluded_and_rows_persist {α : Type} (db : DB α) (z : α)
    (qid : Nat) (ids : List Nat) (rid : Nat) (f : α) (s : SalesDB) (cid : Nat) :
    db.GetAll.1.all Row.active = true
    ∧ (db.GetByID z qid).1.all Row.active = true
    ∧ ((s.GetCustomerWithOrders cid).1.all
        (fun cw => cw.customer.active && cw.orders.all Row.active)) = true
    ∧ (db.Delete qid).1.rows.map Row.id = db.rows.map Row.id
    ∧ (db.DeleteAll ids).1.rows.map Row.id = db.rows.map Row.id
    ∧ (match db.Create rid f with
       | Except.ok p => ((db.rows.map Row.id).isPrefixOf (p.2.rows.map Row.id)) = true
       | Except.error _ => True)
    ∧ (match db.Update rid f with
       | Except.ok db2 => ((db.rows.map Row.id).isPrefixOf (db2.rows.map Row.id)) = true
       | Except.error _ => True) := by
  refine ⟨all_active_activeRows db, ?_, ?_, ?_, ?_, ?_, ?_⟩
  · unfold DB.GetByID
    cases h : db.firstById qid with
    | some r =>
      have hr : r ∈ db.activeRows := List.mem_of_find?_eq_some h
      simpa [Option.all] using (List.mem_filter.mp hr).2
    | none => rfl
  · unfold SalesDB.GetCustomerWithOrders
    cases h : s.customers.firstById cid with
    | some c =>
      have h1 : c.active = true :=
        (List.mem_filter.mp (List.mem_of_find?_eq_some h)).2
      have h2 := all_active_filter_activeRows s.orders
        (fun o => o.fields.customerId == c.id)
      simp [Option.all, h1, h2]
    | none => rfl
  · unfold DB.Delete
    exact map_id_of_mark db.rows _
      (fun r => by by_cases hc : (r.active && r.id == qid) = true
                   · rw [if_pos hc]
                   · rw [if_neg hc])
  · unfold DB.DeleteAll
    exact map_id_of_mark db.rows _
      (fun r => by by_cases hc : (r.active && ids.contains r.id) = true
                   · rw [if_pos hc]
                   · rw [if_neg hc])
  · cases hcr : db.Create rid f with
    | error e => exact trivial
    | ok p =>
      obtain ⟨row, db2⟩ := p
      show ((db.rows.map Row.id).isPrefixOf (db2.rows.map Row.id)) = true
      rw [create_ok_rows db rid f row db2 hcr, List.map_append]
      exact isPrefixOf_append_self _ _
  · unfold DB.Update
    by_cases h0 : rid = 0
    · rw [if_pos h0]
      cases hcr : db.Create 0 f with
      | error e => exact trivial
      | ok p =>
        obtain ⟨row, db2⟩ := p
        simp only [Except.map]
        show ((db.rows.map Row.id).isPrefixOf (db2.rows.map Row.id)) = true
        rw [create_ok_rows db 0 f row db2 hcr, List.map_append]
        exact isPrefixOf_append_self _ _
    · rw [if_neg h0]
      by_cases hup : db.rows.any (fun r => r.active && r.id == rid) = true
      · rw [if_pos hup]
        show ((db.rows.map Row.id).isPrefixOf _) = true
        rw [map_id_of_mark db.rows _
          (fun r => by by_cases hc : (r.active && r.id == rid) = true
                       · rw [if_pos hc]
                       · rw [if_neg hc])]
        exact isPrefixOf_self _
      · rw [if_neg hup]
        cases hcr : db.Create rid f with
        | error e => exact trivial
        | ok p =>
          obtain ⟨row, db2⟩ := p
          simp only [Except.map]
          show ((db.rows.map Row.id).isPrefixOf (db2.rows.map Row.id)) = true
          rw [create_ok_rows db rid f row db2 hcr, List.map_append]
          exact isPrefixOf_append_self _ _

/-- C6: `GetCustomerWithOrders(id)` for an existing customer with no
active orders returns the customer with an empty orders collection and
no error. -/
theorem getCustomerWithOrders_empty_orders_ok (s : SalesDB) (id : Nat)
    (c : Row CustomerFields)
    (hc : s.customers.firstById id = some c)
    (hno : s.orders.activeRows.filter (fun o => o.fields.customerId == c.id) = []) :
    s.GetCustomerWithOrders id = (some ⟨c, []⟩, none) := by
  unfold SalesDB.GetCustomerWithOrders
  rw [hc]
  show (some (⟨c, s.orders.activeRows.filter
      (fun o => o.fields.customerId == c.id)⟩ : CustomerWithOrders),
    (none : Option DbError)) = (some ⟨c, []⟩, none)
  rw [hno]

/-- Witness for C6 at a concrete input: customer 1 exists and its only
order is soft-deleted, so the fetch returns it with an empty orders
collection and no error. -/
theorem getCustomerWithOrders_empty_orders_ok_wit :
    sampleSales.customers.firstById 1 = some ⟨1, 0, 0, none, anaFields⟩
    ∧ sampleSales.GetCustomerWithOrders 1 =
        (some ⟨⟨1, 0, 0, none, anaFields⟩, []⟩, none) :=
  ⟨rfl, getCustomerWithOrders_empty_orders_ok sampleSales 1
    ⟨1, 0, 0, none, anaFields⟩ rfl rfl⟩

/-- C7: when a table holds no non-deleted rows, `GetAll()` returns the
empty collection and no error. -/
theorem getAll_empty_no_error {α : Type} (db : DB α)
    (h : db.activeRows = []) : db.GetAll = ([], none) := by
  unfold DB.GetAll
  rw [h]

/-- Witness for C7 at a concrete input: a table whose only row is
soft-deleted has no active rows, and `GetAll` on it yields the empty
collection without error. -/
theorem getAll_empty_no_error_wit :
    deletedOnly.activeRows = [] ∧ deletedOnly.GetAll = ([], none) :=
  ⟨rfl, getAll_empty_no_error deletedOnly rfl⟩

/-- C8: the `Supplier.Contact` association in the source carries the tag
`foreignKey:CustomerID`, so it resolves through the contacts table's
`customer_id` column and not through `supplier_id`, contradicting the
claim's separate-foreign-keys reading; the Customer association does use
`customer_id`. -/
theorem supplier_contact_resolves_through_customer_id :
    contactColumnOf Supplier.contactAssociation.foreignKey = "customer_id"
    ∧ contactColumnOf Supplier.contactAssociation.foreignKey ≠ "supplier_id"
    ∧ contactColumnOf Customer.contactAssociation.foreignKey = "customer_id" :=
  ⟨rfl, by decide, rfl⟩

/-- C9: each of the seven entities persists to the fixed table name the
spec lists, inside the single schema namespace `sales`. -/
theorem table_names_in_sales_schema :
    Customer.tableName = schemaName ++ "." ++ "customers"
    ∧ Order.tableName = schemaName ++ "." ++ "orders"
    ∧ Contact.tableName = schemaName ++ "." ++ "contacts"
    ∧ Product.tableName = schemaName ++ "." ++ "products"
    ∧ Supplier.tableName = schemaName ++ "." ++ "suppliers"
    ∧ ProductSupplier.tableName = schemaName ++ "." ++ "product_suppliers"
    ∧ OrderProductSupplier.tableName = schemaName ++ "." ++ "order_product_suppliers" :=
  ⟨rfl, rfl, rfl, rfl, rfl, rfl, rfl⟩

/-- C10: `GetByID` always hands back a present (never-nil) record
pointer, and whenever it reports an error the record it hands back is
the zero-valued one. -/
theorem getByID_record_never_nil {α : Type} (db : DB α) (z : α) (id : Nat) :
    (db.GetByID z id).1.isSome = true
    ∧ ((db.GetByID z id).2.isSome = true →
        (db.GetByID z id).1 = some (Row.zero z)) := by
  unfold DB.GetByID
  cases h : db.firstById id with
  | some r => exact ⟨rfl, fun hx => by simp at hx⟩
  | none => exact ⟨rfl, fun _ => rfl⟩

/-- Witness for C10 at a concrete input: looking up id 7 in an empty
table fails, yet the record component is the zero-valued record, not
absent. -/
theorem getByID_record_never_nil_wit :
    (emptyCustomers.GetByID CustomerFields.zero 7).1 =
      some (Row.zero CustomerFields.zero)
    ∧ (emptyCustomers.GetByID CustomerFields.zero 7).1.isSome = true :=
  ⟨(getByID_record_never_nil emptyCustomers CustomerFields.zero 7).2 rfl,
    (getByID_record_never_nil emptyCustomers CustomerFields.zero 7).1⟩

end Store
